import Mathlib

/-!
Shallow embedding of the wtsi-hgi/openstack-tools repository (glancecp,
glancenuke) and proofs about its specification.

The embedding models:
* `GlanceCPShell.parse_specification` (src/openstacktools/glancecp.py, lines 89-112)
  as a function on `List Char`, with each of the three `re.fullmatch` patterns
  translated to an explicit matcher (`matchEnvRest`, `matchEnvQuoted`, `matchBare`);
* the copy-migration flow of `GlanceCPShell.main` from the point where the source
  image has been found (glancecp.py, lines 684-744) as `glancecp_run`, which
  emits a trace of registry calls and a result; the remote registry's behaviour
  (which calls raise) is supplied as an oracle `DestRegistry`;
* `data_to_upload_stream` (glancecp.py, lines 754-770): the `UploadStream.readinto`
  raw stream plus the `io.BufferedReader` read loop wrapped around it;
* glancenuke's `_get_images`, `_delete_image`, `_delete_images` and the tail of
  `main` (src/openstacktools/glancenuke.py); the bounded thread pool is modelled
  by quantifying over the order in which the per-image delete outcomes complete
  (the `on_complete` callback body runs under a single lock, so the tally is a
  sequential fold over that completion order), and `ThreadPoolExecutor`'s
  documented rejection of `max_workers = 0` (ValueError) is part of the model.

Bytes are modelled as `Nat`, byte strings as `List Nat`, Python strings as
`String` or `List Char`, and exceptions as the `String` message they carry.
-/

/-! ### Image reference resolver: GlanceCPShell.parse_specification -/

/-- The single-quote character, written via its code point. -/
def squote : Char := Char.ofNat 39

/-- The newline character. Python's `.` in a regex (no DOTALL) matches any
character except newline, so the matchers below must exclude it. -/
def nlChar : Char := Char.ofNat 10

/-- The control character U+0002.  In glancecp.py line 100 the second pattern is
written as a non-raw Python string, so its `\2` is an octal escape denoting
this character, not a backreference. -/
def ctrlB : Char := Char.ofNat 2

/-- Membership in the character class `[a-zA-Z0-9_]` used by the `env` group of
the first two patterns of `parse_specification`. -/
def isWordChar (c : Char) : Bool :=
  (Char.ofNat 97 ≤ c && c ≤ Char.ofNat 122) ||
  (Char.ofNat 65 ≤ c && c ≤ Char.ofNat 90) ||
  (Char.ofNat 48 ≤ c && c ≤ Char.ofNat 57) ||
  c = '_'

/-- True when the string contains no newline; this is the condition for `.*`
(without DOTALL) together with `re.fullmatch` to match the string. -/
def noNewline (s : List Char) : Bool := s.all (fun c => c ≠ nlChar)

/-- Splits off the maximal leading run of `[a-zA-Z0-9_]` characters.  This is
what the greedy group `(?P<env>[a-zA-Z0-9_]*)` consumes: since a colon is not a
word character, backtracking can never shorten it, so the split is unique. -/
def takeWordChars : List Char → List Char × List Char
  | [] => ([], [])
  | c :: cs =>
    if isWordChar c then
      (c :: (takeWordChars cs).1, (takeWordChars cs).2)
    else ([], c :: cs)

/-- Pattern 1 of `parse_specification` (glancecp.py line 93):
`re.fullmatch('^(?P<env>[a-zA-Z0-9_]*):(?P<id_or_name>.*)$', spec)`.
Matches when a colon follows the maximal word-character run and the rest has no
newline; the rest is returned verbatim (quotes and colons included). -/
def matchEnvRest (s : List Char) : Option (List Char × List Char) :=
  match takeWordChars s with
  | (_, []) => none
  | (env, c :: rest) =>
    if c = ':' then (if noNewline rest then some (env, rest) else none) else none

/-- Pattern 2 of `parse_specification` (glancecp.py line 100):
`re.fullmatch('^(?P<env>[a-zA-Z0-9_]*):(["\'])(?P<id_or_name>.*)\2$', spec)`.
Because the pattern is a non-raw string, `\2` is the octal escape for U+0002,
so the pattern demands a literal control character at the end rather than a
closing quote.  (It is also unreachable: any string it could match is already
matched by pattern 1.) -/
def matchEnvQuoted (s : List Char) : Option (List Char × List Char) :=
  match takeWordChars s with
  | (env, c :: q :: rest) =>
    if c = ':' && (q = '"' || q = squote) then
      if rest.getLast? = some ctrlB && noNewline rest.dropLast then
        some (env, rest.dropLast)
      else none
    else none
  | _ => none

/-- Helper for pattern 3: matches `s` of the form `q ++ mid ++ q` for the given
quote character `q`, with `mid` newline-free, returning `mid`. -/
def stripMatchingQuotes (q : Char) (s : List Char) : Option (List Char) :=
  match s with
  | [] => none
  | c :: rest =>
    if rest.length = 0 then none
    else if c = q && rest.getLast? = some q && noNewline rest.dropLast then
      some rest.dropLast
    else none

/-- Pattern 3 of `parse_specification` (glancecp.py line 107):
`re.fullmatch(r"(?P<quote>['\"]|)(?P<id_or_name>.*?)(?P=quote)", spec)`.
If the string is wrapped in one matching pair of quotes they are stripped;
otherwise the quote group matches empty and the whole string is returned
(requiring no newline, as `.*?` cannot cross one). -/
def matchBare (s : List Char) : Option (List Char) :=
  match s with
  | [] => some []
  | c :: _ =>
    if c = squote || c = '"' then
      match stripMatchingQuotes c s with
      | some mid => some mid
      | none => if noNewline s then some s else none
    else if noNewline s then some s else none

/-- GlanceCPShell.parse_specification (glancecp.py lines 89-112): tries the
three patterns in order, first match wins; returns `(env_name, id_or_name)`.
`none` corresponds to the final `raise ValueError`. -/
def parse_specification (spec : List Char) : Option (List Char × List Char) :=
  match matchEnvRest spec with
  | some r => some r
  | none =>
  match matchEnvQuoted spec with
  | some r => some r
  | none =>
  match matchBare spec with
  | some idn => some ([], idn)
  | none => none

/-! ### Shared image data model -/

/-- A registry image record: identity, (non-unique) name, and the `protected`
property consulted by glancenuke's inventory scan. -/
structure Image where
  id : String
  name : String
  «protected» : Bool
deriving DecidableEq, Repr

/-! ### Copy-migration orchestrator: GlanceCPShell.main (glancecp.py 684-744) -/

/-- The `--duplicate-name-strategy` choices of glancecp (glancecp.py line 379). -/
inductive Strategy
  | none
  | allow
  | replace
deriving DecidableEq, Repr

/-- One remote registry call issued by `GlanceCPShell.main`.  `list` and `get`
are read-only; `delete`, `create`, `upload` and `rename` are mutating (glancecp
never issues a `rename`; the constructor exists so that claims about renames
can be stated). -/
inductive Call
  | list
  | get (id : String)
  | delete (id : String)
  | create (name : String)
  | upload (id : String)
  | rename (id : String) (newName : String)
deriving DecidableEq, Repr

/-- Whether a call mutates the destination registry. -/
def Call.isMutating : Call → Bool
  | Call.delete _ => true
  | Call.create _ => true
  | Call.upload _ => true
  | Call.rename _ _ => true
  | _ => false

/-- The `utils.exit` messages of the migration flow, one constructor per format
string in glancecp.py, each carrying the interpolated exception text:
* `conflictDeleteFailed`: line 710, "Failed to delete image with conflicting name ..." (carries `e`);
* `duplicateName`: line 713, "An image named ... is already present at destination ...";
* `createFailed`: line 731, "Failed to create destination image ..." (carries `e`);
* `uploadFailed`: line 741, "Failed to upload image ..." (carries the upload exception `ue`);
* `deleteAfterUploadFailed`: line 740, "Failed to delete image after upload failed ..."
  (carries only the delete exception `de`; the upload exception is not interpolated). -/
inductive ExitMsg
  | conflictDeleteFailed (name : String) (e : String)
  | duplicateName (name : String)
  | createFailed (e : String)
  | uploadFailed (e : String)
  | deleteAfterUploadFailed (e : String)
deriving DecidableEq, Repr

/-- The exception texts interpolated into each exit message: exactly the `%s`
arguments of the corresponding format strings that denote caught exceptions. -/
def ExitMsg.reportedErrors : ExitMsg → List String
  | ExitMsg.conflictDeleteFailed _ e => [e]
  | ExitMsg.duplicateName _ => []
  | ExitMsg.createFailed e => [e]
  | ExitMsg.uploadFailed e => [e]
  | ExitMsg.deleteAfterUploadFailed e => [e]

/-- Oracle for the destination registry's behaviour during one run:
`deleteErr id` is `some e` when `dest_client.images.delete(id)` raises an
exception with text `e`; `createResult` is the outcome of
`dest_client.images.create(**props)` (the new image's id on success);
`uploadErr` is `some e` when `dest_client.images.upload(...)` raises. -/
structure DestRegistry where
  deleteErr : String → Option String
  createResult : Except String String
  uploadErr : Option String

/-- Result of one `GlanceCPShell.main` run: the new image's id printed on
success, or the `utils.exit` message on failure. -/
inductive CPResult
  | success (newId : String)
  | exited (msg : ExitMsg)
deriving DecidableEq, Repr

/-- The destination name selection (glancecp.py lines 695-699): if the parsed
destination name is nonempty it is used; otherwise the source image's name. -/
def chooseDestName (dest_name : String) (source_image : Image) : String :=
  if dest_name ≠ "" then dest_name else source_image.name

/-- The body of the duplicate-name scan loop (glancecp.py lines 703-721), run
over the destination inventory listing.  Returns the mutating calls the loop
issues and, when `utils.exit` fires, the exit message.  Under `replace`, each
same-name image is deleted on the spot (a failed delete exits); under `none`, a
same-name image exits immediately with the duplicate-name message; under
`allow` the loop never runs (and would do nothing per image if it did). -/
def scanDest (strategy : Strategy) (chosen : String) (reg : DestRegistry) :
    List Image → List Call × Option ExitMsg
  | [] => ([], Option.none)
  | img :: rest =>
    if img.name = chosen then
      match strategy with
      | Strategy.replace =>
        match reg.deleteErr img.id with
        | Option.none =>
          let r := scanDest strategy chosen reg rest
          (Call.delete img.id :: r.1, r.2)
        | some e => ([Call.delete img.id], some (ExitMsg.conflictDeleteFailed img.name e))
      | Strategy.none => ([], some (ExitMsg.duplicateName chosen))
      | Strategy.allow => scanDest strategy chosen reg rest
    else
      scanDest strategy chosen reg rest

/-- The guarded duplicate-name scan (glancecp.py lines 701-721): only performed
when the strategy is not `allow`, in which case it starts with the read-only
`dest_client.images.list()` call. -/
def scanPhase (strategy : Strategy) (chosen : String) (reg : DestRegistry)
    (inv : List Image) : List Call × Option ExitMsg :=
  match strategy with
  | Strategy.allow => ([], Option.none)
  | _ =>
    let r := scanDest strategy chosen reg inv
    (Call.list :: r.1, r.2)

/-- The copy-migration flow of `GlanceCPShell.main` from the point where the
source image has been found (glancecp.py lines 684-744):
duplicate-name scan, then `images.create`, then `images.upload`; on an upload
exception the image created in this run is deleted (lines 733-741), the exit
message reporting the upload error when that delete succeeds and only the
delete error when it also fails.  Returns the trace of destination registry
calls and the run result.  (The earlier source-side steps, lines 667-681,
issue only read-only `get`/`list` calls and are not part of this function.) -/
def glancecp_run (strategy : Strategy) (dest_name : String) (source_image : Image)
    (dest_inventory : List Image) (reg : DestRegistry) : List Call × CPResult :=
  let chosen := chooseDestName dest_name source_image
  let scanned := scanPhase strategy chosen reg dest_inventory
  match scanned.2 with
  | some msg => (scanned.1, CPResult.exited msg)
  | Option.none =>
    match reg.createResult with
    | Except.error e =>
      (scanned.1 ++ [Call.create chosen], CPResult.exited (ExitMsg.createFailed e))
    | Except.ok newId =>
      match reg.uploadErr with
      | Option.none =>
        (scanned.1 ++ [Call.create chosen, Call.upload newId], CPResult.success newId)
      | some ue =>
        match reg.deleteErr newId with
        | Option.none =>
          (scanned.1 ++ [Call.create chosen, Call.upload newId, Call.delete newId],
           CPResult.exited (ExitMsg.uploadFailed ue))
        | some de =>
          (scanned.1 ++ [Call.create chosen, Call.upload newId, Call.delete newId],
           CPResult.exited (ExitMsg.deleteAfterUploadFailed de))

/-! ### Bulk-delete engine: glancenuke (src/openstacktools/glancenuke.py) -/

/-- The inventory scan `_get_images` (glancenuke.py lines 108-127): partitions
the listed images into deletable ids (`protected` falsy) and protected ids
(`protected` truthy), in listing order, and builds the id-to-name map (as an
association list in listing order). -/
def _get_images : List Image → List String × List String × List (String × String)
  | [] => ([], [], [])
  | img :: rest =>
    let r := _get_images rest
    if img.«protected» then
      (r.1, img.id :: r.2.1, (img.id, img.name) :: r.2.2)
    else
      (img.id :: r.1, r.2.1, (img.id, img.name) :: r.2.2)

/-- `_delete_image` (glancenuke.py lines 93-105): issues the delete, returns
`true` on success; an `HTTPException` is caught (its message is printed to
stderr) and `false` is returned.  `delete_result id` is the registry's
behaviour for that id: `Except.error e` when the call raises with text `e`. -/
def _delete_image (delete_result : String → Except String Unit) (image_id : String) : Bool :=
  match delete_result image_id with
  | Except.ok _ => true
  | Except.error _ => false

/-- The running tally mutated by the `on_complete` callback of `_delete_images`
(glancenuke.py lines 69-81) under its single lock. -/
structure Tally where
  complete : Nat
  failed : Nat
deriving DecidableEq, Repr

/-- One progress line emitted by `on_complete` (glancenuke.py lines 80-81):
"Deleted (complete - failed)/len(image_ids) ... (failed failed)". -/
structure Progress where
  succeeded : Nat
  total : Nat
  failed : Nat
deriving DecidableEq, Repr

/-- The body of the `on_complete` callback (glancenuke.py lines 74-81), which
runs under `complete_lock`: increments `complete`, increments `failed` when the
future's result is false, and emits the progress line. -/
def on_complete (total : Nat) (t : Tally) (success : Bool) : Tally × Progress :=
  let complete := t.complete + 1
  let failed := if success then t.failed else t.failed + 1
  (Tally.mk complete failed, Progress.mk (complete - failed) total failed)

/-- The sequence of locked `on_complete` executions over a given completion
order of the per-image outcomes.  Because every callback serializes through
`complete_lock`, the concurrent completions are equivalent to this sequential
fold over some permutation of the submitted outcomes. -/
def run_completions (total : Nat) (t : Tally) : List Bool → Tally × List Progress
  | [] => (t, [])
  | b :: rest =>
    let step := on_complete total t b
    let r := run_completions total step.1 rest
    (r.1, step.2 :: r.2)

/-- `_delete_images` (glancenuke.py lines 60-90): submits one `_delete_image`
task per id to `ThreadPoolExecutor(max_workers=max_simultaneous_deletes)`,
waits for all futures, and returns `len(image_ids) - failed`.
`completion_order` is the order in which the futures' outcomes reach
`on_complete` (under the lock); a faithful instantiation is any permutation of
`image_ids.map (_delete_image delete_result)`.  `ThreadPoolExecutor` raises
`ValueError` when `max_workers` is not positive, before any task is submitted,
which the `Except.error` branch models. -/
def _delete_images (image_ids : List String) (_delete_result : String → Except String Unit)
    (completion_order : List Bool) (max_simultaneous_deletes : Nat) :
    Except String (Nat × List Progress) :=
  if max_simultaneous_deletes = 0 then
    Except.error "ValueError: max_workers must be greater than 0"
  else
    let r := run_completions image_ids.length (Tally.mk 0 0) completion_order
    Except.ok (image_ids.length - r.1.failed, r.2)

/-- The `--ignore-delete-failures` option (glancenuke.py lines 157-158):
declared with `action="store_true"` and `default=True`, so argparse stores
`True` when the flag is present and the default `True` when it is absent. -/
def parse_ignore_delete_failures (argv : List String) : Bool :=
  if argv.contains "--ignore-delete-failures" then true else true

/-- The tail of glancenuke's `main` after the post-delete re-scan (glancenuke.py
lines 48-57): returns the process exit code and whether the "Could not
delete..." message was printed to stderr.  When some requested images remain
and failures are not ignored it prints to stderr and exits 1; otherwise it
falls through to `exit(0)`. -/
def nuke_epilogue (ignore_delete_failures : Bool) (not_deleted : List String) : Nat × Bool :=
  if 0 < not_deleted.length then
    if ignore_delete_failures = false then (1, true) else (0, false)
  else (0, false)

/-! ### Streaming transfer bridge: data_to_upload_stream (glancecp.py 754-770) -/

/-- The state of the raw `UploadStream`: the partially consumed chunk
(`remaining_data`; Python's `None` and `b""` behave identically in the
truthiness test on line 764, so both are `[]`) and the chunks not yet pulled
from the source iterator. -/
structure UploadStream where
  remaining_data : List Nat
  data_iter : List (List Nat)
deriving DecidableEq, Repr

/-- `UploadStream.readinto` (glancecp.py lines 761-769) with a destination
buffer of size `maxChunk`: takes the remaining data if truthy, else the next
chunk from the iterator (a `StopIteration` on an exhausted iterator is caught
and 0 bytes are returned); writes up to `maxChunk` bytes and keeps the rest as
`remaining_data`.  Returns the bytes written and the new state. -/
def readinto (maxChunk : Nat) (s : UploadStream) : List Nat × UploadStream :=
  match s.remaining_data with
  | [] =>
    match s.data_iter with
    | [] => ([], s)
    | chunk :: rest => (chunk.take maxChunk, UploadStream.mk (chunk.drop maxChunk) rest)
  | c :: cs =>
    ((c :: cs).take maxChunk, UploadStream.mk ((c :: cs).drop maxChunk) s.data_iter)

/-- The state of the `io.BufferedReader` wrapped around the `UploadStream`
(glancecp.py line 770): the raw stream, the reader's `buffer_size`, and the
buffered-but-unread bytes. -/
structure BufferedReader where
  raw : UploadStream
  buffer_size : Nat
  buf : List Nat
deriving DecidableEq, Repr

/-- The buffered reader's fill loop (CPython `BufferedReader`, `while avail < n`):
repeatedly reads up to `wanted` bytes from the raw stream until `need` bytes
are accumulated or a raw read returns no bytes (end of data for this call).
`fuel` bounds the recursion; every productive read adds at least one byte, so
`need + 1` steps always suffice. -/
def read_loop (wanted : Nat) (need : Nat) (fuel : Nat) (acc : List Nat)
    (s : UploadStream) : List Nat × UploadStream :=
  match fuel with
  | 0 => (acc, s)
  | f + 1 =>
    if need ≤ acc.length then (acc, s)
    else
      let r := readinto wanted s
      if r.1 = [] then (acc, r.2)
      else read_loop wanted need f (acc ++ r.1) r.2

/-- A pull of `n` bytes from the buffered reader (CPython `BufferedReader.read(n)`
for `n ≥ 0`): served from the buffer when it holds at least `n` bytes, else the
buffer remainder is topped up by the fill loop with reads of
`max(buffer_size, n)` bytes; up to `n` bytes are returned and any surplus is
kept in the buffer.  A zero-byte result signals end-of-stream for this pull. -/
def bufferedRead (n : Nat) (br : BufferedReader) : List Nat × BufferedReader :=
  if n ≤ br.buf.length then
    (br.buf.take n, BufferedReader.mk br.raw br.buffer_size (br.buf.drop n))
  else
    let wanted := max br.buffer_size n
    let r := read_loop wanted n (n + 1) br.buf br.raw
    (r.1.take n, BufferedReader.mk r.2 br.buffer_size (r.1.drop n))

/-- `data_to_upload_stream(data, buffer_size)` (glancecp.py lines 754-770):
wraps the chunk sequence in an `UploadStream` and that in a `BufferedReader`
with the given buffer size. -/
def data_to_upload_stream (data : List (List Nat)) (buffer_size : Nat) : BufferedReader :=
  BufferedReader.mk (UploadStream.mk [] data) buffer_size []

/-- The sequence of `k` successive pulls of `buffer_size` bytes each from the
reader, as performed by the destination session's upload call. -/
def pulls (k : Nat) (br : BufferedReader) : List (List Nat) :=
  match k with
  | 0 => []
  | k + 1 =>
    let r := bufferedRead br.buffer_size br
    r.1 :: pulls k r.2

/-- A reader whose source is exhausted: no buffered bytes, no partially
consumed chunk, no chunks left in the iterator. -/
def IsDrained (br : BufferedReader) : Prop :=
  br.buf = [] ∧ br.raw.remaining_data = [] ∧ br.raw.data_iter = []

instance (br : BufferedReader) : Decidable (IsDrained br) := by
  unfold IsDrained
  infer_instance

/-! ### Helper lemmas about the resolver -/

/-- Splitting off the word-character run is a decomposition of the input. -/
lemma takeWordChars_append (s : List Char) :
    (takeWordChars s).1 ++ (takeWordChars s).2 = s := by
  induction s with
  | nil => rfl
  | cons c cs ih =>
    by_cases h : isWordChar c = true
    · simp [takeWordChars, h, ih]
    · simp [takeWordChars, h]

/-- On an input of the shape `env ++ ':' ++ rest` with `env` all word
characters, the greedy run is exactly `env` (a colon is not a word character). -/
lemma takeWordChars_word_colon (env rest : List Char) (h : env.all isWordChar = true) :
    takeWordChars (env ++ ':' :: rest) = (env, ':' :: rest) := by
  induction env with
  | nil =>
    have hc : isWordChar ':' = false := by decide
    simp [takeWordChars, hc]
  | cons c cs ih =>
    simp only [List.all_cons, Bool.and_eq_true] at h
    simp [takeWordChars, h.1, ih h.2]

/-- Pattern 1 succeeds on `env ++ ':' ++ rest` and returns the rest verbatim. -/
lemma matchEnvRest_colon (env rest : List Char) (henv : env.all isWordChar = true)
    (hrest : noNewline rest = true) :
    matchEnvRest (env ++ ':' :: rest) = some (env, rest) := by
  unfold matchEnvRest
  rw [takeWordChars_word_colon env rest henv]
  simp [hrest]

/-- Pattern 1 fails on a colon-free input. -/
lemma matchEnvRest_no_colon (s : List Char) (h : ':' ∉ s) :
    matchEnvRest s = Option.none := by
  unfold matchEnvRest
  rcases e : takeWordChars s with ⟨p, r⟩
  cases r with
  | nil => rfl
  | cons c rest =>
    have hmem : c ∈ s := by
      have hd := takeWordChars_append s
      rw [e] at hd
      rw [← hd]
      simp
    have hc : ¬(c = ':') := fun hcc => h (hcc ▸ hmem)
    simp [hc]

/-- Pattern 2 fails on a colon-free input. -/
lemma matchEnvQuoted_no_colon (s : List Char) (h : ':' ∉ s) :
    matchEnvQuoted s = Option.none := by
  unfold matchEnvQuoted
  rcases e : takeWordChars s with ⟨p, r⟩
  match r with
  | [] => rfl
  | [c] => rfl
  | c :: q :: rest =>
    have hmem : c ∈ s := by
      have hd := takeWordChars_append s
      rw [e] at hd
      rw [← hd]
      simp
    have hc : ¬(c = ':') := fun hcc => h (hcc ▸ hmem)
    simp [hc]

/-- Pattern 3 strips one matching pair of quotes. -/
lemma stripMatchingQuotes_concat (q : Char) (mid : List Char) (h : noNewline mid = true) :
    stripMatchingQuotes q (q :: mid ++ [q]) = some mid := by
  simp [stripMatchingQuotes, List.getLast?_concat, List.dropLast_concat, h]

/-- Pattern 3 on a double-quote wrapped input strips the quotes. -/
lemma matchBare_dquoted (name : List Char) (h : noNewline name = true) :
    matchBare ('"' :: name ++ ['"']) = some name := by
  have e : ('"' :: name ++ ['"'] : List Char) = '"' :: (name ++ ['"']) := by simp
  rw [e, matchBare, ← e, stripMatchingQuotes_concat '"' name h]
  simp

/-- Pattern 3 on an unquoted, newline-free input returns it verbatim. -/
lemma matchBare_plain (name : List Char) (hn : noNewline name = true)
    (hq1 : name.head? ≠ some squote) (hq2 : name.head? ≠ some '"') :
    matchBare name = some name := by
  cases name with
  | nil => rfl
  | cons c cs =>
    simp only [List.head?] at hq1 hq2
    have h1 : ¬(c = squote) := fun hc => hq1 (by rw [hc])
    have h2 : ¬(c = '"') := fun hc => hq2 (by rw [hc])
    simp [matchBare, h1, h2, hn]

/-- Claim C4 (counterexample): resolving `env:"na:me"` does not strip the
quotes: the first pattern matches first and returns the quoted rest verbatim,
so the result is `(env, "na:me" still wrapped in quotes)`, not `(env, na:me)`. -/
theorem C4_counterexample :
    parse_specification "env:\"na:me\"".data =
      some ("env".data, "\"na:me\"".data) ∧
    parse_specification "env:\"na:me\"".data ≠
      some ("env".data, "na:me".data) := by
  constructor
  · decide
  · decide

/-- Claim C4 (amended): for `env ++ ":" ++ rest` with `env` of word characters
and `rest` newline-free, `parse_specification` returns `(env, rest)` with the
rest taken verbatim — embedded colons are preserved, but so are any quotes, so
the quoted form `env:"na:me"` yields the still-quoted rest; exactly one
matching pair of quotes is stripped only in the colon-free bare quoted form
`"name"`; a colon-free, unquoted bare `name` is returned verbatim under the
empty environment. -/
theorem C4_amended (env rest name : List Char)
    (henv : env.all isWordChar = true)
    (hrest : noNewline rest = true)
    (hname : noNewline name = true)
    (hnc : ':' ∉ name)
    (hq1 : name.head? ≠ some squote) (hq2 : name.head? ≠ some '"') :
    parse_specification (env ++ ':' :: rest) = some (env, rest) ∧
    parse_specification ('"' :: name ++ ['"']) = some ([], name) ∧
    parse_specification name = some ([], name) := by
  refine ⟨?_, ?_, ?_⟩
  · unfold parse_specification
    rw [matchEnvRest_colon env rest henv hrest]
  · have hnc2 : ':' ∉ ('"' :: name ++ ['"'] : List Char) := by
      intro hmem
      simp only [List.cons_append, List.mem_cons, List.mem_append, List.mem_singleton] at hmem
      rcases hmem with h | h | h
      · exact absurd h (by decide)
      · exact hnc h
      · exact absurd h (by decide)
    unfold parse_specification
    rw [matchEnvRest_no_colon _ hnc2, matchEnvQuoted_no_colon _ hnc2,
      matchBare_dquoted name hname]
  · unfold parse_specification
    rw [matchEnvRest_no_colon name hnc, matchEnvQuoted_no_colon name hnc,
      matchBare_plain name hname hq1 hq2]

/-- Witness for C4_amended at env = "env", rest = the quoted "na:me", bare
name = "na_me". -/
theorem C4_amended_witness :
    ("env".data.all isWordChar = true ∧ noNewline "\"na:me\"".data = true ∧
     noNewline "na_me".data = true ∧ ':' ∉ "na_me".data ∧
     "na_me".data.head? ≠ some squote ∧ "na_me".data.head? ≠ some '"') ∧
    (parse_specification ("env".data ++ ':' :: "\"na:me\"".data) =
       some ("env".data, "\"na:me\"".data) ∧
     parse_specification ('"' :: "na_me".data ++ ['"']) = some ([], "na_me".data) ∧
     parse_specification "na_me".data = some ([], "na_me".data)) :=
  ⟨⟨by decide, by decide, by decide, by decide, by decide, by decide⟩,
   C4_amended "env".data "\"na:me\"".data "na_me".data (by decide) (by decide)
     (by decide) (by decide) (by decide) (by decide)⟩

/-! ### Helper lemmas about the copy-migration flow -/

/-- Every call emitted by the duplicate-name scan loop is a delete of an image
id from the scanned inventory. -/
lemma scanDest_trace (strategy : Strategy) (chosen : String) (reg : DestRegistry) :
    ∀ (inv : List Image), ∀ c ∈ (scanDest strategy chosen reg inv).1,
      ∃ i, c = Call.delete i ∧ i ∈ inv.map Image.id := by
  intro inv
  induction inv with
  | nil => intro c hc; simp [scanDest] at hc
  | cons img rest ih =>
    intro c hc
    by_cases hn : img.name = chosen
    · cases strategy with
      | none => simp [scanDest, hn] at hc
      | allow =>
        simp only [scanDest, hn, if_pos] at hc
        rcases ih c hc with ⟨i, hci, hmem⟩
        exact ⟨i, hci, by simp [hmem]⟩
      | replace =>
        rcases hd : reg.deleteErr img.id with _ | e
        · simp only [scanDest, hn, if_pos, hd] at hc
          rcases List.mem_cons.mp hc with h | h
          · exact ⟨img.id, h, by simp⟩
          · rcases ih c h with ⟨i, hci, hmem⟩
            exact ⟨i, hci, by simp [hmem]⟩
        · simp only [scanDest, hn, if_pos, hd] at hc
          rcases List.mem_singleton.mp hc with h
          exact ⟨img.id, by simp [h], by simp⟩
    · simp only [scanDest, hn, if_neg, if_false] at hc
      rcases ih c hc with ⟨i, hci, hmem⟩
      exact ⟨i, hci, by simp [hmem]⟩

/-- Every call emitted before image creation is the inventory listing or a
delete of a pre-existing image id. -/
lemma scanPhase_trace (strategy : Strategy) (chosen : String) (reg : DestRegistry)
    (inv : List Image) :
    ∀ c ∈ (scanPhase strategy chosen reg inv).1,
      c = Call.list ∨ ∃ i, c = Call.delete i ∧ i ∈ inv.map Image.id := by
  intro c hc
  cases strategy with
  | none =>
    simp only [scanPhase] at hc
    rcases List.mem_cons.mp hc with h | h
    · exact Or.inl h
    · exact Or.inr (scanDest_trace _ _ _ _ c h)
  | allow => simp [scanPhase] at hc
  | replace =>
    simp only [scanPhase] at hc
    rcases List.mem_cons.mp hc with h | h
    · exact Or.inl h
    · exact Or.inr (scanDest_trace _ _ _ _ c h)

/-- Claim C1 (counterexample): with strategy `replace`, destination name "X",
one pre-existing destination image ("old1", named "X") and a registry where
every call succeeds, the run's trace is exactly
`[list, delete old1, create X, upload new1]`: the pre-existing same-name image
is deleted before the new image is created and before its data transfer, and
no rename is ever issued. -/
theorem C1_counterexample :
    (glancecp_run Strategy.replace "X" (Image.mk "s1" "src" false)
        [Image.mk "old1" "X" false]
        (DestRegistry.mk (fun _ => Option.none) (Except.ok "new1") Option.none)).1 =
      [Call.list, Call.delete "old1", Call.create "X", Call.upload "new1"] := by
  decide

/-- Claim C1 (amended): under the `replace` strategy the trace of every run
splits into a scan phase followed by a create/transfer phase: the scan phase
consists of the inventory listing and the deletes of pre-existing same-name
images (so every delete of a pre-existing image precedes the create and the
upload), the later phase contains only the create, the upload, and possibly
the compensating delete of the image created in this run, and no rename is
ever issued. -/
theorem C1_amended (dest_name : String) (source_image : Image)
    (inv : List Image) (reg : DestRegistry) :
    ∃ s t, (glancecp_run Strategy.replace dest_name source_image inv reg).1 = s ++ t ∧
      (∀ c ∈ s, c = Call.list ∨ ∃ i, c = Call.delete i ∧ i ∈ inv.map Image.id) ∧
      (∀ c ∈ t, (∃ n, c = Call.create n) ∨ (∃ i, c = Call.upload i) ∨
        (∃ i, c = Call.delete i ∧ reg.createResult = Except.ok i)) ∧
      (∀ i n, Call.rename i n ∉ (glancecp_run Strategy.replace dest_name source_image inv reg).1) := by
  have hs := scanPhase_trace Strategy.replace (chooseDestName dest_name source_image) reg inv
  unfold glancecp_run
  rcases h2 : (scanPhase Strategy.replace (chooseDestName dest_name source_image) reg inv).2 with _ | msg
  · rcases hcr : reg.createResult with e | newId
    · refine ⟨(scanPhase Strategy.replace (chooseDestName dest_name source_image) reg inv).1,
        [Call.create (chooseDestName dest_name source_image)], by simp [h2, hcr], hs, ?_, ?_⟩
      · intro c hc
        rcases List.mem_singleton.mp hc with h
        exact Or.inl ⟨_, h⟩
      · intro i n hmem
        simp only [h2, hcr] at hmem
        rcases List.mem_append.mp hmem with h | h
        · rcases hs _ h with h | ⟨j, hj, _⟩ <;> simp_all
        · simp at h
    · rcases hup : reg.uploadErr with _ | ue
      · refine ⟨(scanPhase Strategy.replace (chooseDestName dest_name source_image) reg inv).1,
          [Call.create (chooseDestName dest_name source_image), Call.upload newId],
          by simp [h2, hcr, hup], hs, ?_, ?_⟩
        · intro c hc
          rcases List.mem_cons.mp hc with h | h
          · exact Or.inl ⟨_, h⟩
          · rcases List.mem_singleton.mp h with h
            exact Or.inr (Or.inl ⟨_, h⟩)
        · intro i n hmem
          simp only [h2, hcr, hup] at hmem
          rcases List.mem_append.mp hmem with h | h
          · rcases hs _ h with h | ⟨j, hj, _⟩ <;> simp_all
          · simp at h
      · rcases hd : reg.deleteErr newId with _ | de
        · refine ⟨(scanPhase Strategy.replace (chooseDestName dest_name source_image) reg inv).1,
            [Call.create (chooseDestName dest_name source_image), Call.upload newId,
             Call.delete newId],
            by simp [h2, hcr, hup, hd], hs, ?_, ?_⟩
          · intro c hc
            rcases List.mem_cons.mp hc with h | h
            · exact Or.inl ⟨_, h⟩
            · rcases List.mem_cons.mp h with h | h
              · exact Or.inr (Or.inl ⟨_, h⟩)
              · rcases List.mem_singleton.mp h with h
                exact Or.inr (Or.inr ⟨newId, h, rfl⟩)
          · intro i n hmem
            simp only [h2, hcr, hup, hd] at hmem
            rcases List.mem_append.mp hmem with h | h
            · rcases hs _ h with h | ⟨j, hj, _⟩ <;> simp_all
            · simp at h
        · refine ⟨(scanPhase Strategy.replace (chooseDestName dest_name source_image) reg inv).1,
            [Call.create (chooseDestName dest_name source_image), Call.upload newId,
             Call.delete newId],
            by simp [h2, hcr, hup, hd], hs, ?_, ?_⟩
          · intro c hc
            rcases List.mem_cons.mp hc with h | h
            · exact Or.inl ⟨_, h⟩
            · rcases List.mem_cons.mp h with h | h
              · exact Or.inr (Or.inl ⟨_, h⟩)
              · rcases List.mem_singleton.mp h with h
                exact Or.inr (Or.inr ⟨newId, h, rfl⟩)
          · intro i n hmem
            simp only [h2, hcr, hup, hd] at hmem
            rcases List.mem_append.mp hmem with h | h
            · rcases hs _ h with h | ⟨j, hj, _⟩ <;> simp_all
            · simp at h
  · refine ⟨(scanPhase Strategy.replace (chooseDestName dest_name source_image) reg inv).1,
      [], by simp [h2], hs, by simp, ?_⟩
    intro i n hmem
    simp only [h2] at hmem
    rcases hs _ (by simpa using hmem) with h | ⟨j, hj, _⟩ <;> simp_all

/-- Witness for C1_amended at a concrete run with one conflicting image. -/
theorem C1_amended_witness :
    ∃ s t, (glancecp_run Strategy.replace "W" (Image.mk "s9" "src9" false)
        [Image.mk "o9" "W" false]
        (DestRegistry.mk (fun _ => Option.none) (Except.ok "n9") Option.none)).1 = s ++ t ∧
      (∀ c ∈ s, c = Call.list ∨ ∃ i, c = Call.delete i ∧
        i ∈ [Image.mk "o9" "W" false].map Image.id) ∧
      (∀ c ∈ t, (∃ n, c = Call.create n) ∨ (∃ i, c = Call.upload i) ∨
        (∃ i, c = Call.delete i ∧
          (DestRegistry.mk (fun _ => Option.none) (Except.ok "n9") Option.none).createResult =
            Except.ok i)) ∧
      (∀ i n, Call.rename i n ∉ (glancecp_run Strategy.replace "W" (Image.mk "s9" "src9" false)
        [Image.mk "o9" "W" false]
        (DestRegistry.mk (fun _ => Option.none) (Except.ok "n9") Option.none)).1) :=
  C1_amended "W" (Image.mk "s9" "src9" false) [Image.mk "o9" "W" false]
    (DestRegistry.mk (fun _ => Option.none) (Except.ok "n9") Option.none)

/-- Under strategy `none`, if some scanned image bears the chosen name, the
scan loop exits with the duplicate-name message having issued no calls. -/
lemma scanDest_none_exits (chosen : String) (reg : DestRegistry) :
    ∀ (inv : List Image), (∃ img ∈ inv, img.name = chosen) →
      scanDest Strategy.none chosen reg inv = ([], some (ExitMsg.duplicateName chosen)) := by
  intro inv
  induction inv with
  | nil => rintro ⟨img, hmem, _⟩; simp at hmem
  | cons img rest ih =>
    rintro ⟨img2, hmem, hname⟩
    by_cases hn : img.name = chosen
    · simp [scanDest, hn]
    · rcases List.mem_cons.mp hmem with h | h
      · exact absurd (h ▸ hname) hn
      · simp [scanDest, hn, ih ⟨img2, h, hname⟩]

/-- Claim C8: under duplicate-name strategy `none`, whenever some image in the
destination inventory has the chosen destination name, the run exits with the
duplicate-name message and its trace is just the read-only inventory listing —
no mutating call (create, upload, delete or rename) is ever issued. -/
theorem C8_main (dest_name : String) (source_image : Image) (inv : List Image)
    (reg : DestRegistry)
    (h : ∃ img ∈ inv, img.name = chooseDestName dest_name source_image) :
    glancecp_run Strategy.none dest_name source_image inv reg =
      ([Call.list],
       CPResult.exited (ExitMsg.duplicateName (chooseDestName dest_name source_image))) ∧
    ∀ c ∈ (glancecp_run Strategy.none dest_name source_image inv reg).1,
      c.isMutating = false := by
  have hscan := scanDest_none_exits (chooseDestName dest_name source_image) reg inv h
  have h1 : glancecp_run Strategy.none dest_name source_image inv reg =
      ([Call.list],
       CPResult.exited (ExitMsg.duplicateName (chooseDestName dest_name source_image))) := by
    unfold glancecp_run scanPhase
    simp [hscan]
  refine ⟨h1, ?_⟩
  intro c hc
  rw [h1] at hc
  rcases List.mem_singleton.mp hc with h
  simp [h, Call.isMutating]

/-- Witness for C8_main with a one-image destination inventory named "X". -/
theorem C8_main_witness :
    (∃ img ∈ [Image.mk "d1" "X" false], img.name = chooseDestName "X" (Image.mk "s1" "src" false)) ∧
    (glancecp_run Strategy.none "X" (Image.mk "s1" "src" false) [Image.mk "d1" "X" false]
        (DestRegistry.mk (fun _ => Option.none) (Except.ok "new1") Option.none) =
      ([Call.list],
       CPResult.exited (ExitMsg.duplicateName (chooseDestName "X" (Image.mk "s1" "src" false)))) ∧
     ∀ c ∈ (glancecp_run Strategy.none "X" (Image.mk "s1" "src" false) [Image.mk "d1" "X" false]
        (DestRegistry.mk (fun _ => Option.none) (Except.ok "new1") Option.none)).1,
       c.isMutating = false) :=
  ⟨⟨Image.mk "d1" "X" false, by decide, by decide⟩,
   C8_main "X" (Image.mk "s1" "src" false) [Image.mk "d1" "X" false]
     (DestRegistry.mk (fun _ => Option.none) (Except.ok "new1") Option.none)
     ⟨Image.mk "d1" "X" false, by decide, by decide⟩⟩

/-- Claim C5 (counterexample): the copy engine's replace strategy issues a
delete against a protected destination image whose name collides with the
destination name — the `protected` property is never consulted in glancecp. -/
theorem C5_counterexample :
    (Image.mk "prot1" "X" true).«protected» = true ∧
    Call.delete "prot1" ∈ (glancecp_run Strategy.replace "X" (Image.mk "s1" "src" false)
        [Image.mk "prot1" "X" true]
        (DestRegistry.mk (fun _ => Option.none) (Except.ok "new1") Option.none)).1 := by
  decide

/-- Claim C5 (amended): in the bulk-delete engine the inventory scan partitions
images exactly by the `protected` property — the deletable list is the ids of
the non-protected images and the to-leave list is the ids of the protected
images, so a protected image is never a bulk-delete target; the copy engine's
replace strategy, by contrast, does not consult the property: it deletes every
same-name destination image, protected or not. -/
theorem C5_amended (imgs : List Image) (chosen : String) (reg : DestRegistry)
    (hdel : ∀ i, reg.deleteErr i = Option.none) :
    (_get_images imgs).1 = (imgs.filter (fun i => !i.«protected»)).map Image.id ∧
    (_get_images imgs).2.1 = (imgs.filter (fun i => i.«protected»)).map Image.id ∧
    ∀ img ∈ imgs, img.name = chosen →
      Call.delete img.id ∈ (scanDest Strategy.replace chosen reg imgs).1 := by
  refine ⟨?_, ?_, ?_⟩
  · induction imgs with
    | nil => rfl
    | cons img rest ih =>
      by_cases hp : img.«protected» <;> simp [_get_images, hp, ih]
  · induction imgs with
    | nil => rfl
    | cons img rest ih =>
      by_cases hp : img.«protected» <;> simp [_get_images, hp, ih]
  · induction imgs with
    | nil => intro img hmem; simp at hmem
    | cons img2 rest ih =>
      intro img hmem hname
      rcases List.mem_cons.mp hmem with h | h
      · subst h
        simp [scanDest, hname, hdel img.id]
      · by_cases hn : img2.name = chosen
        · simp only [scanDest, hn, if_pos, hdel img2.id]
          exact List.mem_cons_of_mem _ (ih img h hname)
        · simp only [scanDest, hn, if_neg, if_false]
          exact ih img h hname

/-- Witness for C5_amended: one protected image carrying the colliding name. -/
theorem C5_amended_witness :
    (∀ i, (DestRegistry.mk (fun _ => Option.none) (Except.ok "n2") Option.none).deleteErr i =
      Option.none) ∧
    ((_get_images [Image.mk "p2" "Z" true]).1 =
      ([Image.mk "p2" "Z" true].filter (fun i => !i.«protected»)).map Image.id ∧
     (_get_images [Image.mk "p2" "Z" true]).2.1 =
      ([Image.mk "p2" "Z" true].filter (fun i => i.«protected»)).map Image.id ∧
     ∀ img ∈ [Image.mk "p2" "Z" true], img.name = "Z" →
       Call.delete img.id ∈ (scanDest Strategy.replace "Z"
         (DestRegistry.mk (fun _ => Option.none) (Except.ok "n2") Option.none)
         [Image.mk "p2" "Z" true]).1) :=
  ⟨fun _ => rfl,
   C5_amended [Image.mk "p2" "Z" true] "Z"
     (DestRegistry.mk (fun _ => Option.none) (Except.ok "n2") Option.none)
     (fun _ => rfl)⟩

/-- Claim C2 (counterexample): when the upload raises "UPLOADERR" and the
compensating delete of the created image raises "DELETEERR", the run exits
with the line-740 message, which interpolates only the delete exception: the
original transfer error is not among the reported errors. -/
theorem C2_counterexample :
    (glancecp_run Strategy.allow "X" (Image.mk "s1" "src" false) []
        (DestRegistry.mk (fun _ => some "DELETEERR") (Except.ok "new1")
          (some "UPLOADERR"))).2 =
      CPResult.exited (ExitMsg.deleteAfterUploadFailed "DELETEERR") ∧
    "UPLOADERR" ∉ (ExitMsg.deleteAfterUploadFailed "DELETEERR").reportedErrors := by
  decide

/-- Claim C2 (amended): if the upload of the image created in this run raises,
that image's delete is issued as the final call and the run terminates; when
the compensating delete succeeds the exit message reports the transfer error,
but when the delete also raises the exit message is the delete failure alone —
the upload error's text is not interpolated into it (the transfer error is
masked, not reported alongside). -/
theorem C2_amended (strategy : Strategy) (dest_name : String) (source_image : Image)
    (inv : List Image) (reg : DestRegistry) (newId ue : String)
    (hscan : (scanPhase strategy (chooseDestName dest_name source_image) reg inv).2 =
      Option.none)
    (hcr : reg.createResult = Except.ok newId)
    (hup : reg.uploadErr = some ue) :
    (glancecp_run strategy dest_name source_image inv reg).1 =
      (scanPhase strategy (chooseDestName dest_name source_image) reg inv).1 ++
        [Call.create (chooseDestName dest_name source_image), Call.upload newId,
         Call.delete newId] ∧
    (reg.deleteErr newId = Option.none →
      (glancecp_run strategy dest_name source_image inv reg).2 =
        CPResult.exited (ExitMsg.uploadFailed ue) ∧
      (ExitMsg.uploadFailed ue).reportedErrors = [ue]) ∧
    (∀ de, reg.deleteErr newId = some de →
      (glancecp_run strategy dest_name source_image inv reg).2 =
        CPResult.exited (ExitMsg.deleteAfterUploadFailed de) ∧
      (ExitMsg.deleteAfterUploadFailed de).reportedErrors = [de]) := by
  refine ⟨?_, ?_, ?_⟩
  · unfold glancecp_run
    rcases hd : reg.deleteErr newId with _ | de <;> simp [hscan, hcr, hup, hd]
  · intro hd
    unfold glancecp_run
    simp [hscan, hcr, hup, hd, ExitMsg.reportedErrors]
  · intro de hd
    unfold glancecp_run
    simp [hscan, hcr, hup, hd, ExitMsg.reportedErrors]

/-- Witness for C2_amended: empty inventory under `allow`, upload and
compensating delete both failing. -/
theorem C2_amended_witness :
    ((scanPhase Strategy.allow (chooseDestName "X" (Image.mk "s1" "src" false))
        (DestRegistry.mk (fun _ => some "DE") (Except.ok "n3") (some "UE")) []).2 =
      Option.none ∧
     (DestRegistry.mk (fun _ => some "DE") (Except.ok "n3") (some "UE")).createResult =
      Except.ok "n3" ∧
     (DestRegistry.mk (fun _ => some "DE") (Except.ok "n3") (some "UE")).uploadErr =
      some "UE") ∧
    ((glancecp_run Strategy.allow "X" (Image.mk "s1" "src" false) []
        (DestRegistry.mk (fun _ => some "DE") (Except.ok "n3") (some "UE"))).1 =
      (scanPhase Strategy.allow (chooseDestName "X" (Image.mk "s1" "src" false))
        (DestRegistry.mk (fun _ => some "DE") (Except.ok "n3") (some "UE")) []).1 ++
        [Call.create (chooseDestName "X" (Image.mk "s1" "src" false)), Call.upload "n3",
         Call.delete "n3"] ∧
     ((DestRegistry.mk (fun _ => some "DE") (Except.ok "n3") (some "UE")).deleteErr "n3" =
        Option.none →
       (glancecp_run Strategy.allow "X" (Image.mk "s1" "src" false) []
          (DestRegistry.mk (fun _ => some "DE") (Except.ok "n3") (some "UE"))).2 =
         CPResult.exited (ExitMsg.uploadFailed "UE") ∧
       (ExitMsg.uploadFailed "UE").reportedErrors = ["UE"]) ∧
     (∀ de, (DestRegistry.mk (fun _ => some "DE") (Except.ok "n3") (some "UE")).deleteErr "n3" =
        some de →
       (glancecp_run Strategy.allow "X" (Image.mk "s1" "src" false) []
          (DestRegistry.mk (fun _ => some "DE") (Except.ok "n3") (some "UE"))).2 =
         CPResult.exited (ExitMsg.deleteAfterUploadFailed de) ∧
       (ExitMsg.deleteAfterUploadFailed de).reportedErrors = [de])) :=
  ⟨⟨rfl, rfl, rfl⟩,
   C2_amended Strategy.allow "X" (Image.mk "s1" "src" false) []
     (DestRegistry.mk (fun _ => some "DE") (Except.ok "n3") (some "UE")) "n3" "UE"
     rfl rfl rfl⟩

/-- Claim C10: the destination image's name is the parsed destination name when
that is nonempty, and the source image's name when the parsed destination name
is empty (glancecp.py lines 695-699). -/
theorem C10_main (dest_name : String) (source_image : Image) :
    (dest_name = "" → chooseDestName dest_name source_image = source_image.name) ∧
    (dest_name ≠ "" → chooseDestName dest_name source_image = dest_name) := by
  constructor <;> intro h <;> simp [chooseDestName, h]

/-- Witness for C10_main at an empty and a nonempty destination name. -/
theorem C10_main_witness :
    chooseDestName "" (Image.mk "src_id" "src_name" false) = "src_name" ∧
    chooseDestName "Y" (Image.mk "src_id" "src_name" false) = "Y" :=
  ⟨(C10_main "" (Image.mk "src_id" "src_name" false)).1 rfl,
   (C10_main "Y" (Image.mk "src_id" "src_name" false)).2 (by decide)⟩

/-! ### Helper lemmas about the bulk-delete tally -/

/-- Final tally after processing a completion order: every completion is
counted, and the failures are exactly the false outcomes. -/
lemma run_completions_final (total : Nat) :
    ∀ (order : List Bool) (t : Tally),
      (run_completions total t order).1.complete = t.complete + order.length ∧
      (run_completions total t order).1.failed = t.failed + order.count false := by
  intro order
  induction order with
  | nil => intro t; simp [run_completions]
  | cons b rest ih =>
    intro t
    rcases ih (on_complete total t b).1 with ⟨h1, h2⟩
    have hc : (on_complete total t b).1.complete = t.complete + 1 := by
      cases b <;> rfl
    constructor
    · simp only [run_completions]
      rw [h1, hc]
      simp
      omega
    · simp only [run_completions]
      rw [h2]
      cases b <;> simp [on_complete, List.count_cons] <;> omega

/-- One progress line is emitted per completion. -/
lemma run_completions_length (total : Nat) :
    ∀ (order : List Bool) (t : Tally),
      (run_completions total t order).2.length = order.length := by
  intro order
  induction order with
  | nil => intro t; rfl
  | cons b rest ih => intro t; simp [run_completions, ih]

/-- The i-th progress line carries the cumulative counts after i+1 locked
callback executions. -/
lemma run_completions_get (total : Nat) :
    ∀ (order : List Bool) (t : Tally) (i : Nat)
      (h : i < (run_completions total t order).2.length),
      ((run_completions total t order).2.get ⟨i, h⟩).total = total ∧
      ((run_completions total t order).2.get ⟨i, h⟩).failed =
        t.failed + (order.take (i + 1)).count false ∧
      ((run_completions total t order).2.get ⟨i, h⟩).succeeded =
        (t.complete + (i + 1)) - (t.failed + (order.take (i + 1)).count false) := by
  intro order
  induction order with
  | nil => intro t i h; simp [run_completions] at h
  | cons b rest ih =>
    intro t i h
    match i with
    | 0 =>
      cases b <;>
        simp [run_completions, on_complete, List.count_cons, Nat.add_comm]
    | j + 1 =>
      have h2 : j < (run_completions total (on_complete total t b).1 rest).2.length := by
        simpa [run_completions] using h
      have hg : ((run_completions total t (b :: rest)).2.get ⟨j + 1, h⟩) =
          ((run_completions total (on_complete total t b).1 rest).2.get ⟨j, h2⟩) := by
        simp [run_completions]
      rcases ih (on_complete total t b).1 j h2 with ⟨g1, g2, g3⟩
      have hcc : (on_complete total t b).1.complete = t.complete + 1 := by
        cases b <;> rfl
      have hff : (on_complete total t b).1.failed =
          t.failed + ((b :: rest).take 1).count false := by
        cases b <;> simp [on_complete, List.count_cons]
      have htake : ((b :: rest).take (j + 1 + 1)).count false =
          ((b :: rest).take 1).count false + (rest.take (j + 1)).count false := by
        simp [List.take_succ_cons, List.count_cons]
        cases b <;> simp <;> omega
      refine ⟨by rw [hg]; exact g1, ?_, ?_⟩
      · rw [hg, g2, hff, htake]
        omega
      · rw [hg, g3, hff, hcc, htake]
        omega

/-- Claim C3 (counterexample): with max-concurrency 0 the engine does not
attempt the deletes and return N - K — `ThreadPoolExecutor(max_workers=0)`
raises ValueError before any delete is submitted. -/
theorem C3_counterexample :
    _delete_images ["img1"] (fun _ => Except.ok ()) [true] 0 =
      Except.error "ValueError: max_workers must be greater than 0" := rfl

/-- Claim C3 (amended): for every id list, every per-id outcome oracle, every
positive max-concurrency and every completion order (any permutation of the
per-id delete outcomes), the engine attempts all N ids — one progress line per
id — no failure aborts the others, the function returns N - K where K is the
number of failing deletes, and every progress line is internally consistent:
its reported succeeded plus failed counts equal the number completed so far,
which never exceeds N. -/
theorem C3_amended (image_ids : List String) (delete_result : String → Except String Unit)
    (order : List Bool) (m : Nat) (hm : 0 < m)
    (hperm : order.Perm (image_ids.map (_delete_image delete_result))) :
    ∃ ps : List Progress,
      _delete_images image_ids delete_result order m =
        Except.ok
          (image_ids.length -
            (image_ids.map (_delete_image delete_result)).count false, ps) ∧
      ps.length = image_ids.length ∧
      ∀ i (h : i < ps.length),
        (ps.get ⟨i, h⟩).total = image_ids.length ∧
        (ps.get ⟨i, h⟩).succeeded + (ps.get ⟨i, h⟩).failed = i + 1 ∧
        i + 1 ≤ image_ids.length := by
  have hm0 : ¬(m = 0) := Nat.pos_iff_ne_zero.mp hm
  have hlen : order.length = image_ids.length := by
    rw [hperm.length_eq, List.length_map]
  have hcnt : order.count false = (image_ids.map (_delete_image delete_result)).count false :=
    hperm.count_eq false
  refine ⟨(run_completions image_ids.length (Tally.mk 0 0) order).2, ?_, ?_, ?_⟩
  · unfold _delete_images
    rw [if_neg hm0]
    rcases run_completions_final image_ids.length order (Tally.mk 0 0) with ⟨_, h2⟩
    show Except.ok (image_ids.length -
      (run_completions image_ids.length (Tally.mk 0 0) order).1.failed, _) = _
    rw [h2]
    simp [hcnt]
  · rw [run_completions_length, hlen]
  · intro i h
    rcases run_completions_get image_ids.length order (Tally.mk 0 0) i h with ⟨g1, g2, g3⟩
    have hile : i + 1 ≤ order.length := by
      have := h
      rw [run_completions_length] at this
      omega
    have hcle : (order.take (i + 1)).count false ≤ i + 1 := by
      calc (order.take (i + 1)).count false ≤ (order.take (i + 1)).length :=
            List.count_le_length false _
        _ ≤ i + 1 := by simp [List.length_take]
    refine ⟨g1, ?_, by omega⟩
    rw [g2, g3]
    simp only [Nat.zero_add]
    omega

/-- Witness for C3_amended: three ids of which the middle delete fails,
concurrency 2, completions arriving in the order failure-success-success. -/
theorem C3_amended_witness :
    (0 < 2 ∧
     ([false, true, true] : List Bool).Perm
       (["a", "b", "c"].map
         (_delete_image (fun i => if i = "b" then Except.error "HTTPError" else Except.ok ())))) ∧
    (∃ ps : List Progress,
      _delete_images ["a", "b", "c"]
          (fun i => if i = "b" then Except.error "HTTPError" else Except.ok ())
          [false, true, true] 2 =
        Except.ok
          ((["a", "b", "c"] : List String).length -
            ((["a", "b", "c"] : List String).map
              (_delete_image (fun i => if i = "b" then Except.error "HTTPError" else
                Except.ok ()))).count false, ps) ∧
      ps.length = (["a", "b", "c"] : List String).length ∧
      ∀ i (h : i < ps.length),
        (ps.get ⟨i, h⟩).total = (["a", "b", "c"] : List String).length ∧
        (ps.get ⟨i, h⟩).succeeded + (ps.get ⟨i, h⟩).failed = i + 1 ∧
        i + 1 ≤ (["a", "b", "c"] : List String).length) :=
  ⟨⟨by decide, by decide⟩,
   C3_amended ["a", "b", "c"]
     (fun i => if i = "b" then Except.error "HTTPError" else Except.ok ())
     [false, true, true] 2 (by decide) (by decide)⟩

/-- Claim C6: glancenuke's own CLI declares 0 a valid worker count
(`choices=range(0, 1000)`), but `_delete_images` hands it straight to
`ThreadPoolExecutor`, which raises ValueError for `max_workers = 0`: the call
fails before attempting any delete instead of serializing. -/
theorem C6_bug :
    _delete_images ["a", "b"] (fun _ => Except.ok ()) [true, true] 0 =
      Except.error "ValueError: max_workers must be greater than 0" := rfl

/-- Claim C9: `--ignore-delete-failures` is declared with `action="store_true"`
and `default=True`, so it is `True` on every invocation, flag or no flag; the
failure branch that prints the not-deleted list to stderr and exits 1 is
therefore unreachable, and after the delete pass glancenuke always exits 0
without printing the failure message to stderr, whatever remains undeleted. -/
theorem C9_main (argv : List String) (not_deleted : List String) :
    parse_ignore_delete_failures argv = true ∧
    nuke_epilogue (parse_ignore_delete_failures argv) not_deleted = (0, false) := by
  have h : parse_ignore_delete_failures argv = true := by
    unfold parse_ignore_delete_failures
    split <;> rfl
  refine ⟨h, ?_⟩
  rw [h]
  unfold nuke_epilogue
  split <;> simp

/-! ### Helper lemmas about the streaming bridge -/

/-- A pull on a drained reader returns zero bytes (never an error) and leaves
the reader drained. -/
lemma bufferedRead_drained (n : Nat) (br : BufferedReader) (h : IsDrained br) :
    bufferedRead n br = ([], br) := by
  rcases br with ⟨⟨rem, iter⟩, bs, buf⟩
  rcases h with ⟨h1, h2, h3⟩
  dsimp only at h1 h2 h3
  subst h1; subst h2; subst h3
  by_cases hn : n = 0
  · subst hn; simp [bufferedRead]
  · rw [bufferedRead]
    rw [if_neg (by simpa using hn)]
    simp [read_loop, readinto, hn]

/-- Every pull after the source is drained returns zero bytes. -/
lemma pulls_drained (k : Nat) (br : BufferedReader) (h : IsDrained br) :
    pulls k br = List.replicate k [] := by
  induction k with
  | zero => rfl
  | succ k ih =>
    rw [pulls]
    simp only [bufferedRead_drained br.buffer_size br h]
    rw [ih, List.replicate_succ]

/-- Claim C7 (counterexample): feeding chunks `[b"ab", b"", b"cde"]` and
pulling with buffer size 2 does not yield `"ab", "cd", "e", ""`: the empty
source chunk makes `readinto` return 0 bytes, which the buffered reader treats
as end of data for that pull, so the second pull is already empty. -/
theorem C7_counterexample :
    pulls 4 (data_to_upload_stream [[97, 98], [], [99, 100, 101]] 2) =
      [[97, 98], [], [99, 100], [101]] ∧
    pulls 4 (data_to_upload_stream [[97, 98], [], [99, 100, 101]] 2) ≠
      [[97, 98], [99, 100], [101], []] := by
  decide

/-- Claim C7 (amended): feeding chunks `[b"ab", b"", b"cde"]` and pulling with
buffer size 2 yields `"ab", "", "cd", "e", ""` — the empty source chunk
surfaces as a zero-byte pull in the middle of the stream; and once the source
is exhausted (no buffered bytes, no remaining chunk data) every subsequent
pull returns zero bytes rather than raising an error. -/
theorem C7_amended (br : BufferedReader) (k : Nat) (h : IsDrained br) :
    pulls 5 (data_to_upload_stream [[97, 98], [], [99, 100, 101]] 2) =
      [[97, 98], [], [99, 100], [101], []] ∧
    pulls k br = List.replicate k [] :=
  ⟨by decide, pulls_drained k br h⟩

/-- Witness for C7_amended on a concretely drained reader. -/
theorem C7_amended_witness :
    IsDrained (BufferedReader.mk (UploadStream.mk [] []) 2 []) ∧
    (pulls 5 (data_to_upload_stream [[97, 98], [], [99, 100, 101]] 2) =
      [[97, 98], [], [99, 100], [101], []] ∧
     pulls 3 (BufferedReader.mk (UploadStream.mk [] []) 2 []) = List.replicate 3 []) :=
  ⟨⟨rfl, rfl, rfl⟩,
   C7_amended (BufferedReader.mk (UploadStream.mk [] []) 2 []) 3 ⟨rfl, rfl, rfl⟩⟩
